import Mathlib

/-!
# Boot sequence of the Mozart 2 emulator (`emulator/emulator.cc`)

A shallow embedding of `envVarToOptionName`, `strToAtom`, `pathToAtom` and `main`.

`main` talks to collaborators whose code is not part of the file: the option
parser, `boost::filesystem`, the property registry, dataflow variables, the
boot loader and the scheduler of the VM.  The embedding makes them explicit:

* the parsed options are the input record `Options`;
* path decomposition, the boot loader, feature selection (`dot`) and the
  scheduler are fields of an environment `Env`, so every theorem holds for
  every behaviour of these collaborators;
* the VM state reachable from `main` (registry, variable store, thread queue)
  and the two output streams are fields of the state `Boot`;
* every call `main` makes on the VM is appended to `Boot.trace`, in program
  order.

Collaborator calls are modelled as returning normally; a fault raised inside
the VM is outside this model.
-/

namespace Emulator

/-! ## Values and nodes -/

mutual
/-- Determined Oz values, as far as `main` builds or receives them. -/
inductive Value where
  /-- An atom; also the record with that label and no feature. -/
  | atom (name : String)
  /-- A boolean, built from a C++ `bool`. -/
  | bool (b : Bool)
  /-- A list cell `Head|Tail`; the empty list is the atom `nil`. -/
  | cons (head tail : Value)
  /-- A procedure (abstraction or builtin), identified by a number. -/
  | procedure (id : Nat)
  /-- A builtin module of the VM, identified by its name. -/
  | builtinModule (name : String)
  /-- A record with a label and at least one feature. -/
  | record (label : String) (fields : Fields)
  deriving DecidableEq
/-- The features of a record with their values, in arity order. -/
inductive Fields where
  | nil
  | field (feature : String) (value : Value) (rest : Fields)
  deriving DecidableEq
end

/-- What an `UnstableNode` of `main` can hold. -/
inductive Node where
  /-- A determined value. -/
  | value (v : Value)
  /-- A reference to the dataflow variable with that number (`OptVar`). -/
  | optVar (id : Nat)
  /-- A default-constructed node that nothing was stored into. -/
  | uninit
  deriving DecidableEq

/-- A call handed to `ozcalls::asyncOzCall`: the callee and its arguments. -/
structure OzCall where
  callee : Node
  args : List Node
  deriving DecidableEq

/-- Modelled from the spec: the kind of a Property Entry, `Value` or `Constant`. -/
inductive PropKind where
  | value
  | constant
  deriving DecidableEq

/-- Modelled from the spec: a Property Entry, a (key, value, kind) triple. -/
structure Property where
  key : String
  kind : PropKind
  node : Node
  deriving DecidableEq

/-- The calls `main` makes on the VM, as logged in `Boot.trace`. -/
inductive Effect where
  | registerValueProp (key : String) (value : Value)
  | registerConstantProp (key : String) (node : Node)
  | getProp (key : String)
  | optVarBuild (id : Nat)
  | bootLoader (path : String)
  | isProcedure (value : Value)
  | build (value : Value)
  | dot (subject : Node) (feature : Value)
  | findBuiltinModule (name : String)
  | asyncOzCall (callee : Node) (args : List Node)
  | bind (id : Nat) (value : Value)
  | run
  deriving DecidableEq

/-! ## Collaborators and state -/

/-- The collaborators whose behaviour `main` does not control. -/
structure Env where
  /-- The text `std::cout << visible_options` prints. -/
  visible_options : String
  /-- The member `fs::path::parent_path`. -/
  parent_path : String → String
  /-- The member `fs::path::filename`. -/
  filename : String → String
  /-- The operator `fs::path::operator/`. -/
  append : String → String → String
  /-- The boot loader: `none` when it returns `false`, else the loaded value. -/
  bootLoader : String → Option Value
  /-- The selection `Dottable(subject).dot(vm, feature)`, on the node seen through
  its binding. -/
  dot : Node → Value → Node
  /-- The scheduler: given the queued calls and the store, what each variable
  is bound to when the run reaches quiescence. -/
  scheduler : List OzCall → (Nat → Option Value) → Nat → Option Value

/-- The variables `main` reads after `po::notify`. An option that `main` tests
with `varMap.count` is an `Option`; the others hold their default (empty)
when absent. -/
structure Options where
  /-- The C string `argv[0]`. -/
  argv0 : String
  /-- Whether `varMap.count("help") != 0`. -/
  help : Bool
  ozHome : String
  initFunctorPath : String
  ozSearchPath : Option String
  ozSearchLoad : Option String
  /-- Whether `varMap.count("gui") != 0`. -/
  gui : Bool
  baseFunctorPath : Option String
  appURL : String
  appArgs : List String

/-- The state `main` works on. -/
structure Boot where
  /-- The property registry, newest entry first. -/
  properties : List Property
  /-- The dataflow variables: `none` while unbound. -/
  store : Nat → Option Value
  /-- The number the next `OptVar::build` gets. -/
  nextVar : Nat
  /-- The calls scheduled and not yet run. -/
  threads : List OzCall
  /-- What was written to `std::cout`. -/
  cout : String
  /-- What was written to `std::cerr`. -/
  cerr : String
  /-- The calls made on the VM so far, oldest first. -/
  trace : List Effect
  /-- The value `main` returned, once it has. -/
  status : Option Nat

/-- The state in which `main` starts: a fresh VM and empty streams. -/
def Boot.start : Boot :=
  { properties := [], store := fun _ => none, nextVar := 0, threads := [],
    cout := "", cerr := "", trace := [], status := none }

/-- How a block of `main` ends: with a `return`, or by falling through. -/
inductive Flow where
  | returned (s : Boot)
  | next (s : Boot)

/-! ## Library functions used by `main` -/

/-- The manipulator `boost::io::quoted(s, escape, delim)` as inserted into a
stream: the delimiter, the characters of `s` with the escape in front of
every delimiter and escape, the delimiter. -/
def quoted (s : String) (escape delim : Char) : String :=
  String.mk (delim :: (s.data.flatMap fun c =>
    if c = delim ∨ c = escape then [escape, c] else [c]) ++ [delim])

/-- The insertion `os << p` of a `boost::filesystem::path`, as lines 197-198
and 227-228 perform it on `std::cerr`. The paths are those of Filesystem v3
(the version with `path::native()`, lines 196 and 226), whose inserter is
`os << boost::io::quoted(p.string(), '&')`: the escape is the ampersand, the
delimiter the double quote. -/
def insertPath (p : String) : String :=
  quoted p (Char.ofNat 38) (Char.ofNat 34)

/-- The string `makeLString(s.c_str())`: the characters of `s` up to the first NUL. -/
def c_str (s : String) : String :=
  String.mk (s.data.takeWhile fun c => c ≠ Char.ofNat 0)

/-- Modelled from the spec: a Loaded Unit is tagged Procedure or Value; this
is the test `Callable(v).isProcedure(vm)`. -/
def isProcedure : Value → Bool
  | .procedure _ => true
  | _ => false

/-- The list an `OzListBuilder` hands back from `get` after a `push_back` of
each element in turn: the elements in that order, closed by `nil`. -/
def ozList : List Value → Value
  | [] => .atom "nil"
  | v :: vs => .cons v (ozList vs)

/-! ## The functions of `emulator.cc` -/

/-- The function `envVarToOptionName`. -/
def envVarToOptionName (varName : String) : String :=
  if varName = "OZ_HOME" ∨ varName = "OZHOME" then "home" else ""

/-- The function `strToAtom`: the string is converted with its full length. -/
def strToAtom (str : String) : Value :=
  .atom str

/-- The function `pathToAtom`. -/
def pathToAtom (path : String) : Value :=
  strToAtom path

/-! ## Calls on the VM -/

/-- Modelled from the spec: `get(key)` of the Property Registry returns the
current value of the key, the newest entry registered under it. -/
def Boot.lookup (s : Boot) (key : String) : Option Property :=
  s.properties.find? fun p => p.key = key

/-- Modelled from the spec: `registerValue(key, value)` of the Property
Registry inserts or overwrites; the new entry is what later readers see. -/
def Boot.registerValueProp (s : Boot) (key : String) (value : Value) : Boot :=
  { s with
    properties := { key := key, kind := .value, node := .value value } :: s.properties
    trace := s.trace ++ [.registerValueProp key value] }

/-- Modelled from the spec: `registerConstant(key, placeholderCell)` of the
Property Registry inserts a constant entry occupied by the given node. -/
def Boot.registerConstantProp (s : Boot) (key : String) (node : Node) : Boot :=
  { s with
    properties := { key := key, kind := .constant, node := node } :: s.properties
    trace := s.trace ++ [.registerConstantProp key node] }

/-- Modelled from the spec: `get(key)` returns the current value; the call
`getPropertyRegistry().get(vm, key, result)` stores it into `result`, which
the caller default-constructed. -/
def Boot.getProp (s : Boot) (key : String) : Node × Boot :=
  (match s.lookup key with
   | some p => p.node
   | none => .uninit,
   { s with trace := s.trace ++ [.getProp key] })

/-- Modelled from the spec: a fresh Synchronization Cell, in state Unbound;
this is what `OptVar::build(vm)` hands back. -/
def Boot.optVarBuild (s : Boot) : Nat × Boot :=
  (s.nextVar,
   { s with
     store := fun i => if i = s.nextVar then none else s.store i
     nextVar := s.nextVar + 1
     trace := s.trace ++ [.optVarBuild s.nextVar] })

/-- The node as the VM sees it: a bound variable stands for its value. -/
def Boot.resolve (s : Boot) : Node → Node
  | .optVar id =>
    match s.store id with
    | some v => .value v
    | none => .optVar id
  | n => n

/-- The call `bootLoader(vm, path, result)`. -/
def Boot.bootLoader (s : Boot) (env : Env) (path : String) : Option Value × Boot :=
  (env.bootLoader path, { s with trace := s.trace ++ [.bootLoader path] })

/-- The call `Callable(value).isProcedure(vm)`. -/
def Boot.isProcedure (s : Boot) (value : Value) : Bool × Boot :=
  (Emulator.isProcedure value, { s with trace := s.trace ++ [.isProcedure value] })

/-- The calls `build(vm, ...)` and `buildRecord(vm, ...)`: the value is handed
back. -/
def Boot.build (s : Boot) (value : Value) : Value × Boot :=
  (value, { s with trace := s.trace ++ [.build value] })

/-- The call `Dottable(subject).dot(vm, feature)`. -/
def Boot.dot (s : Boot) (env : Env) (subject : Node) (feature : Value) : Node × Boot :=
  (env.dot (s.resolve subject) feature,
   { s with trace := s.trace ++ [.dot (s.resolve subject) feature] })

/-- Modelled from the spec: the VM's module registry hands back a built-in
module handle for a name; this is `vm->findBuiltinModule(name)`. -/
def Boot.findBuiltinModule (s : Boot) (name : String) : Value × Boot :=
  (.builtinModule name, { s with trace := s.trace ++ [.findBuiltinModule name] })

/-- Modelled from the spec: `scheduleCall(callable, args..., outputCell)`
enqueues a unit of work; this is `ozcalls::asyncOzCall(vm, callee, args...)`. -/
def Boot.asyncOzCall (s : Boot) (callee : Node) (args : List Node) : Boot :=
  { s with
    threads := s.threads ++ [{ callee := callee, args := args }]
    trace := s.trace ++ [.asyncOzCall callee args] }

/-- Modelled from the spec: `bind(value)` moves a cell from Unbound to Bound;
this is `DataflowVariable(var).bind(vm, value)`, which `main` applies to the
variable it has just built. -/
def Boot.bind (s : Boot) (id : Nat) (value : Value) : Boot :=
  { s with
    store := fun i => if i = id then some value else s.store i
    trace := s.trace ++ [.bind id value] }

/-- Modelled from the spec: `runToQuiescence()` executes the queued work until
none remains, and a Synchronization Cell goes from Unbound to Bound once: a
variable bound before the run keeps its value, an unbound one gets what the
scheduler binds it to. This is `boostBasedVM.run()`. -/
def Boot.run (s : Boot) (env : Env) : Boot :=
  { s with
    store := fun i =>
      match s.store i with
      | some v => some v
      | none => env.scheduler s.threads s.store i
    threads := []
    trace := s.trace ++ [.run] }

/-! ## `main` -/

/-- The home of the installation (lines 121-132): the `home` option, or else a
directory guessed from `argv[0]`, or else `.`. -/
def resolveHome (env : Env) (o : Options) : String :=
  let appPath := env.parent_path o.argv0
  let isBuildSetting := env.filename appPath = "emulator"
  if o.ozHome = "" then
    let ozHome :=
      if isBuildSetting then env.parent_path (env.parent_path appPath)
      else env.parent_path appPath
    if ozHome = "" then "." else ozHome
  else o.ozHome

/-- The path of the Init functor (lines 134-139): the `init` option, or else
a file below the home. -/
def resolveInit (env : Env) (o : Options) : String :=
  let appPath := env.parent_path o.argv0
  let isBuildSetting := env.filename appPath = "emulator"
  let ozHome := resolveHome env o
  if o.initFunctorPath = "" then
    if isBuildSetting then
      env.append (env.append (env.append ozHome "lib") "cache") "Init.ozf"
    else
      env.append (env.append (env.append (env.append ozHome "share") "mozart") "cache")
        "Init.ozf"
  else o.initFunctorPath

/-- The block "Set some properties" (lines 151-184). -/
def setProperties (env : Env) (o : Options) (s : Boot) : Boot :=
  let ozHomeAtom := pathToAtom (resolveHome env o)
  let s := s.registerValueProp "oz.home" ozHomeAtom
  let s := s.registerValueProp "oz.emulator.home" ozHomeAtom
  let s := s.registerValueProp "oz.configure.home" ozHomeAtom
  let s :=
    match o.ozSearchPath with
    | some ozSearchPath => s.registerValueProp "oz.search.path" (strToAtom ozSearchPath)
    | none => s
  let s :=
    match o.ozSearchLoad with
    | some ozSearchLoad => s.registerValueProp "oz.search.load" (strToAtom ozSearchLoad)
    | none => s
  let appURLAtom := Value.atom (c_str o.appURL)
  let s := s.registerValueProp "application.url" appURLAtom
  let argsBuilder := o.appArgs.map fun arg => Value.atom (c_str arg)
  let s := s.registerValueProp "application.args" (ozList argsBuilder)
  s.registerValueProp "application.gui" (.bool o.gui)

/-- The block "Load the Base environment" (lines 188-213), entered when
`useBaseFunctor` holds. -/
def loadBase (env : Env) (baseFunctorPath : String) (s : Boot) : Flow :=
  let (baseEnv, s) := s.optVarBuild
  let s := s.registerConstantProp "internal.boot.base" (.optVar baseEnv)
  match s.bootLoader env baseFunctorPath with
  | (none, s) =>
    .returned { s with
      cerr := s.cerr ++ "panic: could not load Base functor at "
        ++ insertPath baseFunctorPath ++ "\n"
      status := some 1 }
  | (some baseValue, s) =>
    let s :=
      match s.isProcedure baseValue with
      | (true, s) => s.asyncOzCall (.value baseValue) [.optVar baseEnv]
      | (false, s) =>
        let (applyAtom, s) := s.build (.atom "apply")
        let (applyProc, s) := s.dot env (.value baseValue) applyAtom
        let (importParam, s) := s.build (.atom "import")
        s.asyncOzCall applyProc [.value importParam, .optVar baseEnv]
    .next (s.run env)

/-- The first two statements of the block "Load the Init functor" (lines
218-221): the variable and its registration. -/
def registerInit (s : Boot) : Nat × Boot :=
  let (initFunctor, s) := s.optVarBuild
  (initFunctor, s.registerConstantProp "internal.boot.init" (.optVar initFunctor))

/-- The block "Load the Init functor" (lines 217-240). -/
def loadInit (env : Env) (initFunctorPath : String) (s : Boot) : Flow :=
  let (initFunctor, s) := registerInit s
  match s.bootLoader env initFunctorPath with
  | (none, s) =>
    .returned { s with
      cerr := s.cerr ++ "panic: could not load Init functor at "
        ++ insertPath initFunctorPath ++ "\n"
      status := some 1 }
  | (some initValue, s) =>
    match s.isProcedure initValue with
    | (true, s) =>
      let s := s.asyncOzCall (.value initValue) [.optVar initFunctor]
      .next (s.run env)
    | (false, s) => .next (s.bind initFunctor initValue)

/-- The block "Apply the Init functor" (lines 243-259). -/
def applyInit (env : Env) (s : Boot) : Boot :=
  let (InitFunctor, s) := s.getProp "internal.boot.init"
  let (ApplyAtom, s) := s.build (.atom "apply")
  let (ApplyProc, s) := s.dot env InitFunctor ApplyAtom
  let (BootModule, s) := s.findBuiltinModule "Boot"
  let (ImportRecord, s) := s.build (.record "import" (.field "Boot" BootModule .nil))
  let (out, s) := s.optVarBuild
  let s := s.asyncOzCall ApplyProc [.value ImportRecord, .optVar out]
  s.run env

/-- The state in which `main` reaches the block "Load the Base environment":
the properties are set. -/
def configured (env : Env) (o : Options) : Boot :=
  setProperties env o Boot.start

/-- The Base phase of `main` (lines 187-214): `loadBase` when the `base`
option was given, nothing otherwise. -/
def basePhase (env : Env) (o : Options) (s : Boot) : Flow :=
  match o.baseFunctorPath with
  | some baseFunctorPath => loadBase env baseFunctorPath s
  | none => .next s

/-- The function `main`, from the parsed options to the state it leaves
behind; falling off the end of `main` returns 0. -/
def main (env : Env) (o : Options) : Boot :=
  if o.help then
    { Boot.start with cout := env.visible_options ++ "\n", status := some 0 }
  else
    match basePhase env o (configured env o) with
    | .returned s => s
    | .next s =>
      match loadInit env (resolveInit env o) s with
      | .returned s => s
      | .next s => { applyInit env s with status := some 0 }

/-! ## Specification vocabulary -/

/-- The state a block leaves behind, however it ended. -/
def Flow.state : Flow → Boot
  | .returned s => s
  | .next s => s

/-- The assumption "the scheduler binds the output cell of every call it
ran": for every queue and store, each queued call whose last argument is a
variable finds that variable bound by the scheduler. -/
def SchedulerBinds (env : Env) : Prop :=
  ∀ (calls : List OzCall) (store : Nat → Option Value) (c : OzCall) (i : Nat),
    c ∈ calls → c.args.getLast? = some (.optVar i) → (env.scheduler calls store i).isSome

/-- The sequence an Oz list value stands for, read off the value itself in
the claim's words: the atom `nil` is the empty list, `Head|Tail` is `Head`
followed by the elements of `Tail`, and nothing else is a list. -/
def Value.elements : Value → Option (List Value)
  | .atom name => if name = "nil" then some [] else none
  | .cons head tail =>
    match tail.elements with
    | some rest => some (head :: rest)
    | none => none
  | _ => none

/-- The number of Base phases `main` performs: one when the `base` option was
given, none otherwise. -/
def basePhases (o : Options) : Nat :=
  if o.baseFunctorPath.isSome then 1 else 0

/-! ## A host for examples -/

/-- The value of a feature among the fields of a record. -/
def Fields.lookup : Fields → String → Option Value
  | .nil, _ => none
  | .field f v rest, g => if f = g then some v else rest.lookup g

/-- A host for examples: paths split at `/`, a file system with a compiled
Init procedure and an applied Base functor, selection of record fields, and a
scheduler that binds the last argument of every queued call to a functor. -/
def sampleEnv : Env where
  visible_options := "Allowed options"
  parent_path := fun p =>
    String.mk ((p.data.reverse.dropWhile fun c => c ≠ '/').drop 1).reverse
  filename := fun p => String.mk (p.data.reverse.takeWhile fun c => c ≠ '/').reverse
  append := fun a b => a ++ "/" ++ b
  bootLoader := fun p =>
    if p = "/opt/mozart/share/mozart/cache/Init.ozf" then some (.procedure 1)
    else if p = "/opt/Base.ozf" then
      some (.record "functor" (.field "apply" (.procedure 2) .nil))
    else none
  dot := fun n f =>
    match n, f with
    | .value (.record _ fs), .atom g =>
      match fs.lookup g with
      | some v => .value v
      | none => .uninit
    | _, _ => .uninit
  scheduler := fun calls _ i =>
    if calls.any (fun c => c.args.getLast? = some (.optVar i)) then
      some (.record "functor" (.field "apply" (.procedure (10 + i)) .nil))
    else none

/-- Options for examples: an installed emulator started on an application
with two arguments, no `base`, no `init`, no `home`. -/
def sampleOptions : Options where
  argv0 := "/opt/mozart/bin/ozemulator"
  help := false
  ozHome := ""
  initFunctorPath := ""
  ozSearchPath := none
  ozSearchLoad := none
  gui := false
  baseFunctorPath := none
  appURL := "x-oz://system/OPI.ozf"
  appArgs := ["--flag", "value"]

/-! ## Auxiliary facts -/

/-! ### The state after "Set some properties" -/

theorem configured_status (env : Env) (o : Options) : (configured env o).status = none := by
  unfold configured setProperties
  cases o.ozSearchPath <;> cases o.ozSearchLoad <;> simp [Boot.registerValueProp, Boot.start]

theorem configured_cerr (env : Env) (o : Options) : (configured env o).cerr = "" := by
  unfold configured setProperties
  cases o.ozSearchPath <;> cases o.ozSearchLoad <;> simp [Boot.registerValueProp, Boot.start]

theorem configured_store (env : Env) (o : Options) :
    (configured env o).store = fun _ => none := by
  unfold configured setProperties
  cases o.ozSearchPath <;> cases o.ozSearchLoad <;> simp [Boot.registerValueProp, Boot.start]

theorem configured_nextVar (env : Env) (o : Options) : (configured env o).nextVar = 0 := by
  unfold configured setProperties
  cases o.ozSearchPath <;> cases o.ozSearchLoad <;> simp [Boot.registerValueProp, Boot.start]

theorem configured_threads (env : Env) (o : Options) : (configured env o).threads = [] := by
  unfold configured setProperties
  cases o.ozSearchPath <;> cases o.ozSearchLoad <;> simp [Boot.registerValueProp, Boot.start]

/-- Setting the properties makes `registerValueProp` calls only. -/
theorem configured_trace (env : Env) (o : Options) (e : Effect)
    (h : e ∈ (configured env o).trace) : ∃ k v, e = .registerValueProp k v := by
  unfold configured setProperties at h
  cases hp : o.ozSearchPath <;> cases hl : o.ozSearchLoad <;>
    simp [Boot.registerValueProp, Boot.start, hp, hl] at h <;>
    rcases h with h | h | h | h | h | h | h | h <;>
    first | exact ⟨_, _, h⟩ | exact ⟨_, _, rfl⟩

theorem configured_count_run (env : Env) (o : Options) :
    (configured env o).trace.count .run = 0 := by
  rw [List.count_eq_zero]
  intro h
  obtain ⟨k, v, hk⟩ := configured_trace env o _ h
  cases hk

/-- The keys under which the properties are set are not the boot keys. -/
theorem configured_lookup_boot (env : Env) (o : Options) :
    (configured env o).lookup "internal.boot.base" = none ∧
    (configured env o).lookup "internal.boot.init" = none := by
  unfold configured setProperties
  cases o.ozSearchPath <;> cases o.ozSearchLoad <;>
    simp [Boot.registerValueProp, Boot.start, Boot.lookup]

/-! ### The shape of a run -/

/-- What `main` does once the Base phase fell through: the Init block runs on
the state the Base phase left. -/
theorem main_of_base_next (env : Env) (o : Options) (sB : Boot) (hhelp : o.help = false)
    (hB : basePhase env o (configured env o) = .next sB) :
    main env o =
      match loadInit env (resolveInit env o) sB with
      | .returned s => s
      | .next s => { applyInit env s with status := some 0 } := by
  unfold main
  rw [hB]
  simp only [hhelp]
  cases loadInit env (resolveInit env o) sB <;> rfl

/-- The Init block starts with the variable, its registration and the load. -/
theorem loadInit_trace (env : Env) (path : String) (s : Boot) :
    ∃ rest, (loadInit env path s).state.trace = s.trace ++
      [.optVarBuild s.nextVar, .registerConstantProp "internal.boot.init" (.optVar s.nextVar),
        .bootLoader path] ++ rest := by
  unfold loadInit registerInit
  cases hl : env.bootLoader path with
  | none =>
    exact ⟨[], by simp [Boot.optVarBuild, Boot.registerConstantProp, Boot.bootLoader, hl,
      Flow.state]⟩
  | some u =>
    cases hp : isProcedure u with
    | true =>
      exact ⟨[.isProcedure u, .asyncOzCall (.value u) [.optVar s.nextVar], .run], by
        simp [Boot.optVarBuild, Boot.registerConstantProp, Boot.bootLoader, hl, Flow.state,
          Boot.isProcedure, hp, Boot.asyncOzCall, Boot.run]⟩
    | false =>
      exact ⟨[.isProcedure u, .bind s.nextVar u], by
        simp [Boot.optVarBuild, Boot.registerConstantProp, Boot.bootLoader, hl, Flow.state,
          Boot.isProcedure, hp, Boot.bind]⟩

/-- The Apply block only adds to the trace. -/
theorem applyInit_trace (env : Env) (s : Boot) :
    ∃ rest, (applyInit env s).trace = s.trace ++ rest := by
  exact ⟨[.getProp "internal.boot.init", .build (.atom "apply"),
    .dot (s.resolve (s.getProp "internal.boot.init").1) (.atom "apply"),
    .findBuiltinModule "Boot",
    .build (.record "import" (.field "Boot" (.builtinModule "Boot") .nil)),
    .optVarBuild s.nextVar,
    .asyncOzCall (env.dot (s.resolve (s.getProp "internal.boot.init").1) (.atom "apply"))
      [.value (.record "import" (.field "Boot" (.builtinModule "Boot") .nil)),
        .optVar s.nextVar],
    .run], by
    simp [applyInit, Boot.getProp, Boot.build, Boot.dot, Boot.findBuiltinModule,
      Boot.optVarBuild, Boot.asyncOzCall, Boot.run, Boot.resolve]⟩

/-- Once the Base phase fell through, the trace of `main` goes on with the
first three calls of the Init block. -/
theorem main_trace_of_base_next (env : Env) (o : Options) (sB : Boot) (hhelp : o.help = false)
    (hB : basePhase env o (configured env o) = .next sB) :
    ∃ rest, (main env o).trace = sB.trace ++
      [.optVarBuild sB.nextVar,
        .registerConstantProp "internal.boot.init" (.optVar sB.nextVar),
        .bootLoader (resolveInit env o)] ++ rest := by
  rw [main_of_base_next env o sB hhelp hB]
  obtain ⟨r1, h1⟩ := loadInit_trace env (resolveInit env o) sB
  cases hI : loadInit env (resolveInit env o) sB with
  | returned s =>
    rw [hI] at h1
    exact ⟨r1, h1⟩
  | next s =>
    rw [hI] at h1
    obtain ⟨r2, h2⟩ := applyInit_trace env s
    refine ⟨r1 ++ r2, ?_⟩
    simp only [Flow.state] at h1
    simp [h2, h1]
/-- The moment `internal.boot.init` is registered, given the state the Base
phase left. -/
theorem registerInit_state (s : Boot) :
    (registerInit s).2.trace = s.trace ++
      [.optVarBuild s.nextVar, .registerConstantProp "internal.boot.init" (.optVar s.nextVar)] ∧
    (registerInit s).2.store = (fun i => if i = s.nextVar then none else s.store i) ∧
    (registerInit s).2.properties =
      { key := "internal.boot.init", kind := .constant, node := .optVar s.nextVar } ::
        s.properties := by
  simp [registerInit, Boot.optVarBuild, Boot.registerConstantProp]

/-- The Init block passes through the state `registerInit` gives. -/
theorem loadInit_take (env : Env) (path : String) (s : Boot) :
    (loadInit env path s).state.trace.take (s.trace.length + 2) = (registerInit s).2.trace := by
  obtain ⟨rest, h⟩ := loadInit_trace env path s
  rw [h, (registerInit_state s).1]
  simp [List.take_append_eq_append_take]

/-- The boot blocks register the boot keys only: any other key reads in the
state `main` leaves as it reads once the properties are set. -/
theorem main_lookup (env : Env) (o : Options) (key : String) (hhelp : o.help = false)
    (h1 : key ≠ "internal.boot.base") (h2 : key ≠ "internal.boot.init") :
    (main env o).lookup key = (configured env o).lookup key := by
  have h1' := Ne.symm h1
  have h2' := Ne.symm h2
  cases hbase : o.baseFunctorPath with
  | none =>
    cases hl : env.bootLoader (resolveInit env o) with
    | none =>
      simp [main, hhelp, basePhase, hbase, loadInit, registerInit, Boot.optVarBuild,
        Boot.registerConstantProp, Boot.bootLoader, hl, Boot.lookup, h1', h2']
    | some u =>
      cases hp : isProcedure u <;>
      simp [main, hhelp, basePhase, hbase, loadInit, registerInit, applyInit,
        Boot.optVarBuild, Boot.registerConstantProp, Boot.bootLoader, hl, hp,
        Boot.isProcedure, Boot.asyncOzCall, Boot.run, Boot.bind, Boot.getProp, Boot.build,
        Boot.dot, Boot.findBuiltinModule, Boot.lookup, h1', h2']
  | some p =>
    cases hb : env.bootLoader p with
    | none =>
      simp [main, hhelp, basePhase, hbase, loadBase, Boot.optVarBuild,
        Boot.registerConstantProp, Boot.bootLoader, hb, Boot.lookup, h1', h2']
    | some b =>
      cases hl : env.bootLoader (resolveInit env o) with
      | none =>
        cases hq : isProcedure b <;>
        simp [main, hhelp, basePhase, hbase, loadBase, loadInit, registerInit,
          Boot.optVarBuild, Boot.registerConstantProp, Boot.bootLoader, hb, hl, hq,
          Boot.isProcedure, Boot.asyncOzCall, Boot.run, Boot.build, Boot.dot, Boot.lookup,
          h1', h2']
      | some u =>
        cases hq : isProcedure b <;> cases hp : isProcedure u <;>
        simp [main, hhelp, basePhase, hbase, loadBase, loadInit, registerInit, applyInit,
          Boot.optVarBuild, Boot.registerConstantProp, Boot.bootLoader, hb, hl, hq, hp,
          Boot.isProcedure, Boot.asyncOzCall, Boot.run, Boot.bind, Boot.getProp, Boot.build,
          Boot.dot, Boot.findBuiltinModule, Boot.lookup, h1', h2']

/-- The boot blocks make no `registerValueProp` call: those in the trace of
`main` are the ones made while setting the properties. -/
theorem main_mem_registerValueProp (env : Env) (o : Options) (k : String) (v : Value)
    (hhelp : o.help = false) :
    Effect.registerValueProp k v ∈ (main env o).trace ↔
      Effect.registerValueProp k v ∈ (configured env o).trace := by
  cases hbase : o.baseFunctorPath with
  | none =>
    cases hl : env.bootLoader (resolveInit env o) with
    | none =>
      simp [main, hhelp, basePhase, hbase, loadInit, registerInit, Boot.optVarBuild,
        Boot.registerConstantProp, Boot.bootLoader, hl]
    | some u =>
      cases hp : isProcedure u <;>
      simp [main, hhelp, basePhase, hbase, loadInit, registerInit, applyInit,
        Boot.optVarBuild, Boot.registerConstantProp, Boot.bootLoader, hl, hp,
        Boot.isProcedure, Boot.asyncOzCall, Boot.run, Boot.bind, Boot.getProp, Boot.build,
        Boot.dot, Boot.findBuiltinModule]
  | some p =>
    cases hb : env.bootLoader p with
    | none =>
      simp [main, hhelp, basePhase, hbase, loadBase, Boot.optVarBuild,
        Boot.registerConstantProp, Boot.bootLoader, hb]
    | some b =>
      cases hl : env.bootLoader (resolveInit env o) with
      | none =>
        cases hq : isProcedure b <;>
        simp [main, hhelp, basePhase, hbase, loadBase, loadInit, registerInit,
          Boot.optVarBuild, Boot.registerConstantProp, Boot.bootLoader, hb, hl, hq,
          Boot.isProcedure, Boot.asyncOzCall, Boot.run, Boot.build, Boot.dot]
      | some u =>
        cases hq : isProcedure b <;> cases hp : isProcedure u <;>
        simp [main, hhelp, basePhase, hbase, loadBase, loadInit, registerInit, applyInit,
          Boot.optVarBuild, Boot.registerConstantProp, Boot.bootLoader, hb, hl, hq, hp,
          Boot.isProcedure, Boot.asyncOzCall, Boot.run, Boot.bind, Boot.getProp, Boot.build,
          Boot.dot, Boot.findBuiltinModule]

/-- The host for examples has a scheduler that binds output cells. -/
theorem sampleEnv_schedulerBinds : SchedulerBinds sampleEnv := by
  intro calls store c i hc hi
  simp only [sampleEnv, List.any_eq_true, decide_eq_true_eq]
  rw [if_pos ⟨c, hc, hi⟩]
  rfl

/-- The list a builder hands back reads as the elements pushed, in order. -/
theorem ozList_elements (vs : List Value) : (ozList vs).elements = some vs := by
  induction vs with
  | nil => simp [ozList, Value.elements]
  | cons v vs ih => simp [ozList, Value.elements, ih]

/-- A C string holds no NUL, and `c_str` gives it back whole. -/
theorem c_str_of_no_nul (a : String) (h : Char.ofNat 0 ∉ a.data) : c_str a = a := by
  unfold c_str
  have : a.data.takeWhile (fun c => decide (c ≠ Char.ofNat 0)) = a.data := by
    rw [List.takeWhile_eq_self_iff]
    intro c hc
    simp only [ne_eq, decide_not, Bool.not_eq_true', decide_eq_false_iff_not]
    intro hc0
    exact h (hc0 ▸ hc)
  rw [this]

/-! ## The claims -/

/-- C1, as stated, fails: for a `base` option `Base.ozf` that cannot be
loaded, `main` returns 1 and the diagnostic stream holds the path between
double quotes, not the bare line
`panic: could not load Base functor at Base.ozf`. -/
theorem base_diagnostic_quotes_path :
    sampleEnv.bootLoader "Base.ozf" = none ∧
    (main sampleEnv { sampleOptions with baseFunctorPath := some "Base.ozf" }).status = some 1 ∧
    (main sampleEnv { sampleOptions with baseFunctorPath := some "Base.ozf" }).cerr =
      "panic: could not load Base functor at \"Base.ozf\"\n" ∧
    (main sampleEnv { sampleOptions with baseFunctorPath := some "Base.ozf" }).cerr ≠
      "panic: could not load Base functor at " ++ "Base.ozf" ++ "\n" := by
  decide

/-- C1 (amended): in a run that gets past the options (no `--help`), when the
boot loader fails in the Base phase, or in the Init phase once the Base phase
is over, `main` returns 1, the load is the last call it made on the VM, and
the diagnostic stream holds exactly `panic: could not load Base functor at `
(resp. `Init`) followed by the path handed to the loader as the path inserter
writes it - between double quotes, an ampersand before each double quote or
ampersand - and a newline. -/
theorem load_failure_diagnostic (env : Env) (o : Options) (hhelp : o.help = false) :
    (∀ p, o.baseFunctorPath = some p → env.bootLoader p = none →
      (main env o).status = some 1 ∧
      (main env o).trace.getLast? = some (.bootLoader p) ∧
      (main env o).cerr =
        "panic: could not load Base functor at " ++ quoted p '&' (Char.ofNat 34) ++ "\n") ∧
    ((∀ p, o.baseFunctorPath = some p → (env.bootLoader p).isSome) →
      env.bootLoader (resolveInit env o) = none →
      (main env o).status = some 1 ∧
      (main env o).trace.getLast? = some (.bootLoader (resolveInit env o)) ∧
      (main env o).cerr =
        "panic: could not load Init functor at " ++
          quoted (resolveInit env o) '&' (Char.ofNat 34) ++ "\n") := by
  constructor
  · intro p hbase hload
    simp [main, hhelp, basePhase, hbase, loadBase, Boot.optVarBuild, Boot.registerConstantProp,
      Boot.bootLoader, hload, configured_cerr, insertPath]
  · intro hok hload
    cases hbase : o.baseFunctorPath with
    | none =>
      simp [main, hhelp, basePhase, hbase, loadInit, registerInit, Boot.optVarBuild,
        Boot.registerConstantProp, Boot.bootLoader, hload, configured_cerr, insertPath]
    | some p =>
      obtain ⟨u, hu⟩ := Option.isSome_iff_exists.mp (hok p hbase)
      cases hp : isProcedure u <;>
      simp [main, hhelp, basePhase, hbase, loadBase, loadInit, registerInit, Boot.optVarBuild,
        Boot.registerConstantProp, Boot.bootLoader, hload, hu, hp, Boot.isProcedure,
        Boot.asyncOzCall, Boot.run, Boot.build, Boot.dot, configured_cerr, insertPath]

/-- C1 (amended), at work: a missing Base functor, and a missing Init functor
whose path holds a double quote. -/
theorem load_failure_diagnostic_witness :
    ((main sampleEnv { sampleOptions with baseFunctorPath := some "Base.ozf" }).status = some 1 ∧
      (main sampleEnv { sampleOptions with baseFunctorPath := some "Base.ozf" }).trace.getLast?
        = some (.bootLoader "Base.ozf") ∧
      (main sampleEnv { sampleOptions with baseFunctorPath := some "Base.ozf" }).cerr =
        "panic: could not load Base functor at " ++ quoted "Base.ozf" '&' (Char.ofNat 34)
          ++ "\n") ∧
    ((main sampleEnv { sampleOptions with initFunctorPath := "a\"b.ozf" }).status = some 1 ∧
      (main sampleEnv { sampleOptions with initFunctorPath := "a\"b.ozf" }).trace.getLast?
        = some (.bootLoader "a\"b.ozf") ∧
      (main sampleEnv { sampleOptions with initFunctorPath := "a\"b.ozf" }).cerr =
        "panic: could not load Init functor at " ++ quoted "a\"b.ozf" '&' (Char.ofNat 34)
          ++ "\n") :=
  ⟨(load_failure_diagnostic sampleEnv { sampleOptions with baseFunctorPath := some "Base.ozf" }
      rfl).1 "Base.ozf" rfl (by decide),
    (load_failure_diagnostic sampleEnv { sampleOptions with initFunctorPath := "a\"b.ozf" }
      rfl).2 (by decide) (by decide)⟩

/-- C2: whatever state a phase starts in, once the boot loader hands back a
unit the calls of the phase are fixed by `isProcedure`. For a procedure, the
Base and the Init block each schedule one call, the unit itself on the
variable registered for the phase as sole argument, and run the scheduler; no
`dot`, no `build`. For any other unit, the Base block selects the feature
`apply` of the unit and schedules that on the atom `import` (the record
`import` without features) and the variable of the phase, and never schedules
the unit on the variable alone; the Init block schedules and runs nothing and
binds the variable of the phase to the unit. -/
theorem dispatch_on_procedure (env : Env) (path : String) (s : Boot) (unit : Value)
    (hload : env.bootLoader path = some unit) :
    (isProcedure unit = true →
      (loadBase env path s).state.trace = s.trace ++
        [.optVarBuild s.nextVar,
          .registerConstantProp "internal.boot.base" (.optVar s.nextVar),
          .bootLoader path, .isProcedure unit,
          .asyncOzCall (.value unit) [.optVar s.nextVar], .run] ∧
      (loadInit env path s).state.trace = s.trace ++
        [.optVarBuild s.nextVar,
          .registerConstantProp "internal.boot.init" (.optVar s.nextVar),
          .bootLoader path, .isProcedure unit,
          .asyncOzCall (.value unit) [.optVar s.nextVar], .run]) ∧
    (isProcedure unit = false →
      (loadBase env path s).state.trace = s.trace ++
        [.optVarBuild s.nextVar,
          .registerConstantProp "internal.boot.base" (.optVar s.nextVar),
          .bootLoader path, .isProcedure unit,
          .build (.atom "apply"), .dot (.value unit) (.atom "apply"),
          .build (.atom "import"),
          .asyncOzCall (env.dot (.value unit) (.atom "apply"))
            [.value (.atom "import"), .optVar s.nextVar],
          .run] ∧
      Effect.asyncOzCall (.value unit) [.optVar s.nextVar] ∉
        (loadBase env path s).state.trace.drop s.trace.length ∧
      (loadInit env path s).state.trace = s.trace ++
        [.optVarBuild s.nextVar,
          .registerConstantProp "internal.boot.init" (.optVar s.nextVar),
          .bootLoader path, .isProcedure unit, .bind s.nextVar unit] ∧
      (loadInit env path s).state.store s.nextVar = some unit ∧
      (loadInit env path s).state.threads = s.threads) := by
  constructor
  · intro hp
    simp [loadBase, loadInit, registerInit, Flow.state, Boot.optVarBuild,
      Boot.registerConstantProp, Boot.bootLoader, hload, hp, Boot.isProcedure,
      Boot.asyncOzCall, Boot.run]
  · intro hp
    simp [loadBase, loadInit, registerInit, Flow.state, Boot.optVarBuild,
      Boot.registerConstantProp, Boot.bootLoader, hload, hp, Boot.isProcedure,
      Boot.asyncOzCall, Boot.run, Boot.build, Boot.dot, Boot.resolve, Boot.bind]

/-- C2, at work: the Init procedure and the applied Base functor of the
sample host, each loaded in both blocks from the start state. -/
theorem dispatch_on_procedure_witness :
    ((loadBase sampleEnv "/opt/mozart/share/mozart/cache/Init.ozf" Boot.start).state.trace =
        [.optVarBuild 0, .registerConstantProp "internal.boot.base" (.optVar 0),
          .bootLoader "/opt/mozart/share/mozart/cache/Init.ozf", .isProcedure (.procedure 1),
          .asyncOzCall (.value (.procedure 1)) [.optVar 0], .run] ∧
      (loadInit sampleEnv "/opt/mozart/share/mozart/cache/Init.ozf" Boot.start).state.trace =
        [.optVarBuild 0, .registerConstantProp "internal.boot.init" (.optVar 0),
          .bootLoader "/opt/mozart/share/mozart/cache/Init.ozf", .isProcedure (.procedure 1),
          .asyncOzCall (.value (.procedure 1)) [.optVar 0], .run]) ∧
    (loadInit sampleEnv "/opt/Base.ozf" Boot.start).state.store 0 =
      some (.record "functor" (.field "apply" (.procedure 2) .nil)) :=
  ⟨(dispatch_on_procedure sampleEnv "/opt/mozart/share/mozart/cache/Init.ozf" Boot.start
      (.procedure 1) (by decide)).1 rfl,
    ((dispatch_on_procedure sampleEnv "/opt/Base.ozf" Boot.start
      (.record "functor" (.field "apply" (.procedure 2) .nil)) (by decide)).2 rfl).2.2.2.1⟩

/-- C3: in a run that gets past the options, with a `base` option whose load
succeeds, the Base phase ends in a state `sB` whose trace is: setting the
properties (`registerValueProp` calls only), the Base variable, the
registration of `internal.boot.base`, the Base load, the dispatch with its
one scheduled call, the run. The trace of `main` is that trace followed by
the Init variable, the registration of `internal.boot.init` and the Init
load: everything of the Base phase comes strictly before. If the scheduler
binds the output cell of every call it ran, then in the state in which
`internal.boot.init` has just been registered, `internal.boot.base` is the
Base variable and that variable is bound to a value, while the Init variable
is still unbound. -/
theorem base_phase_before_init (env : Env) (o : Options) (p : String) (unit : Value)
    (hhelp : o.help = false) (hbase : o.baseFunctorPath = some p)
    (hload : env.bootLoader p = some unit) :
    ∃ sB : Boot,
      basePhase env o (configured env o) = .next sB ∧
      sB.trace = (configured env o).trace ++
        [.optVarBuild 0, .registerConstantProp "internal.boot.base" (.optVar 0),
          .bootLoader p, .isProcedure unit] ++
        (if isProcedure unit then [.asyncOzCall (.value unit) [.optVar 0]]
         else [.build (.atom "apply"), .dot (.value unit) (.atom "apply"),
           .build (.atom "import"),
           .asyncOzCall (env.dot (.value unit) (.atom "apply"))
             [.value (.atom "import"), .optVar 0]]) ++
        [.run] ∧
      (∀ e ∈ (configured env o).trace, ∃ k v, e = .registerValueProp k v) ∧
      (∃ rest, (main env o).trace = sB.trace ++
        [.optVarBuild 1, .registerConstantProp "internal.boot.init" (.optVar 1),
          .bootLoader (resolveInit env o)] ++ rest) ∧
      (loadInit env (resolveInit env o) sB).state.trace.take (sB.trace.length + 2) =
        (registerInit sB).2.trace ∧
      (registerInit sB).2.trace = sB.trace ++
        [.optVarBuild 1, .registerConstantProp "internal.boot.init" (.optVar 1)] ∧
      (SchedulerBinds env →
        ∃ v, (registerInit sB).2.lookup "internal.boot.base" =
            some { key := "internal.boot.base", kind := .constant, node := .optVar 0 } ∧
          (registerInit sB).2.store 0 = some v ∧
          (registerInit sB).2.resolve (.optVar 0) = .value v ∧
          (registerInit sB).2.lookup "internal.boot.init" =
            some { key := "internal.boot.init", kind := .constant, node := .optVar 1 } ∧
          (registerInit sB).2.store 1 = none) := by
  have hcfg := configured_trace env o
  have hB : basePhase env o (configured env o) =
      .next (basePhase env o (configured env o)).state := by
    cases hp : isProcedure unit <;>
    simp [basePhase, hbase, loadBase, Flow.state, Boot.optVarBuild, Boot.registerConstantProp,
      Boot.bootLoader, hload, hp, Boot.isProcedure]
  have hnext : (basePhase env o (configured env o)).state.nextVar = 1 := by
    cases hp : isProcedure unit <;>
    simp [basePhase, hbase, loadBase, Flow.state, Boot.optVarBuild, Boot.registerConstantProp,
      Boot.bootLoader, hload, hp, Boot.isProcedure, Boot.asyncOzCall, Boot.run, Boot.build,
      Boot.dot, configured_nextVar]
  refine ⟨_, hB, ?_, hcfg, ?_, loadInit_take env _ _, ?_, ?_⟩
  · cases hp : isProcedure unit <;>
    simp [basePhase, hbase, loadBase, Flow.state, Boot.optVarBuild, Boot.registerConstantProp,
      Boot.bootLoader, hload, hp, Boot.isProcedure, Boot.asyncOzCall, Boot.run, Boot.build,
      Boot.dot, Boot.resolve, configured_nextVar]
  · have h := main_trace_of_base_next env o _ hhelp hB
    rw [hnext] at h
    exact h
  · rw [(registerInit_state _).1, hnext]
  · intro hs
    cases hp : isProcedure unit with
    | true =>
      have hb := hs [OzCall.mk (.value unit) [.optVar 0]] (fun _ => none)
        (OzCall.mk (.value unit) [.optVar 0]) 0 (by simp) (by simp)
      obtain ⟨v, hv⟩ := Option.isSome_iff_exists.mp hb
      refine ⟨v, ?_⟩
      simp [registerInit, basePhase, hbase, loadBase, Flow.state, Boot.optVarBuild,
        Boot.registerConstantProp, Boot.bootLoader, hload, hp, Boot.isProcedure,
        Boot.asyncOzCall, Boot.run, configured_nextVar, configured_store,
        configured_threads, Boot.lookup, Boot.resolve, hv]
    | false =>
      have hb := hs
        [OzCall.mk (env.dot (.value unit) (.atom "apply")) [.value (.atom "import"), .optVar 0]]
        (fun _ => none)
        (OzCall.mk (env.dot (.value unit) (.atom "apply")) [.value (.atom "import"), .optVar 0])
        0 (by simp) (by simp)
      obtain ⟨v, hv⟩ := Option.isSome_iff_exists.mp hb
      refine ⟨v, ?_⟩
      simp [registerInit, basePhase, hbase, loadBase, Flow.state, Boot.optVarBuild,
        Boot.registerConstantProp, Boot.bootLoader, hload, hp, Boot.isProcedure,
        Boot.asyncOzCall, Boot.run, Boot.build, Boot.dot, Boot.resolve,
        configured_nextVar, configured_store, configured_threads, Boot.lookup, hv]

/-- C3, at work: the sample host loads the applied functor `/opt/Base.ozf` as
Base; once `internal.boot.init` is registered, `internal.boot.base` is the
Base variable and that variable is bound. -/
theorem base_phase_before_init_witness :
    (registerInit (basePhase sampleEnv
        { sampleOptions with baseFunctorPath := some "/opt/Base.ozf" }
        (configured sampleEnv
          { sampleOptions with baseFunctorPath := some "/opt/Base.ozf" })).state).2.lookup
      "internal.boot.base" =
        some { key := "internal.boot.base", kind := .constant, node := .optVar 0 } ∧
    ((registerInit (basePhase sampleEnv
        { sampleOptions with baseFunctorPath := some "/opt/Base.ozf" }
        (configured sampleEnv
          { sampleOptions with baseFunctorPath := some "/opt/Base.ozf" })).state).2.store
      0).isSome = true := by
  obtain ⟨sB, h1, _, _, _, _, _, h7⟩ :=
    base_phase_before_init sampleEnv
      { sampleOptions with baseFunctorPath := some "/opt/Base.ozf" } "/opt/Base.ozf"
      (.record "functor" (.field "apply" (.procedure 2) .nil)) rfl rfl (by decide)
  obtain ⟨v, h8, h9, _⟩ := h7 sampleEnv_schedulerBinds
  rw [h1]
  exact ⟨h8, by rw [Flow.state, h9]; rfl⟩

/-- C4: when the `base` option is absent, `main` performs no Base phase. The
Base phase leaves the configured state untouched; no call registers
`internal.boot.base` and the registry `main` leaves behind has no such key;
the trace is empty (`--help`) or is that of setting the properties, which
holds `registerValueProp` calls only, followed at once by the first calls of
the Init block, so no call is scheduled before `internal.boot.init` is
registered; and the boot loader is called at most once, on the Init path. -/
theorem no_base_phase (env : Env) (o : Options) (hbase : o.baseFunctorPath = none) :
    basePhase env o (configured env o) = .next (configured env o) ∧
    (∀ n, Effect.registerConstantProp "internal.boot.base" n ∉ (main env o).trace) ∧
    (main env o).lookup "internal.boot.base" = none ∧
    ((main env o).trace = [] ∨
      ∃ rest, (main env o).trace = (configured env o).trace ++
        [.optVarBuild 0, .registerConstantProp "internal.boot.init" (.optVar 0),
          .bootLoader (resolveInit env o)] ++ rest) ∧
    (∀ e ∈ (configured env o).trace, ∃ k v, e = .registerValueProp k v) ∧
    (((main env o).trace.filter fun e => e matches .bootLoader _) = [] ∨
      ((main env o).trace.filter fun e => e matches .bootLoader _) =
        [.bootLoader (resolveInit env o)]) := by
  have hB : basePhase env o (configured env o) = .next (configured env o) := by
    simp [basePhase, hbase]
  have hcfg := configured_trace env o
  have hboot : ∀ x ∈ (configured env o).properties, ¬ x.key = "internal.boot.base" := by
    simpa [Boot.lookup] using (configured_lookup_boot env o).1
  have hfilter : ((configured env o).trace.filter fun e => e matches .bootLoader _) = [] := by
    simp only [List.filter_eq_nil_iff]
    intro e he
    obtain ⟨k, v, hk⟩ := hcfg _ he
    subst hk; simp
  have hnotin : ∀ n, Effect.registerConstantProp "internal.boot.base" n ∉
      (configured env o).trace := by
    intro n hn
    obtain ⟨k, v, hk⟩ := hcfg _ hn
    cases hk
  refine ⟨hB, ?_, ?_, ?_, hcfg, ?_⟩
  all_goals
    cases hhelp : o.help with
    | true => simp [main, hhelp, Boot.start, Boot.lookup]
    | false =>
      cases hl : env.bootLoader (resolveInit env o) with
      | none =>
        simp [main, hhelp, hB, loadInit, registerInit, Boot.optVarBuild,
          Boot.registerConstantProp, Boot.bootLoader, hl, configured_nextVar, Boot.lookup,
          List.filter_append, hfilter, hnotin] <;> exact hboot
      | some u =>
        cases hp : isProcedure u <;>
        simp [main, hhelp, hB, loadInit, registerInit, applyInit, Boot.optVarBuild,
          Boot.registerConstantProp, Boot.bootLoader, hl, hp, Boot.isProcedure,
          Boot.asyncOzCall, Boot.run, Boot.bind, Boot.getProp, Boot.build, Boot.dot,
          Boot.findBuiltinModule, configured_nextVar, Boot.lookup, List.filter_append,
          hfilter, hnotin] <;> exact hboot

/-- C4, at work: the sample options have no `base`. -/
theorem no_base_phase_witness :
    Effect.registerConstantProp "internal.boot.base" (.optVar 0) ∉
      (main sampleEnv sampleOptions).trace ∧
    (main sampleEnv sampleOptions).lookup "internal.boot.base" = none :=
  ⟨(no_base_phase sampleEnv sampleOptions rfl).2.1 (.optVar 0),
    (no_base_phase sampleEnv sampleOptions rfl).2.2.1⟩

/-- C5: in a run that gets past the options, with a `base` option whose load
fails, `main` returns 1 and its calls are those of setting the properties
followed by the Base variable, the registration of `internal.boot.base` and
the Base load, and nothing more: no call registers `internal.boot.init` and
the registry has no such key, the boot loader was called once (for Base),
no call was scheduled, the thread queue is empty and the scheduler never
ran. -/
theorem base_failure_stops (env : Env) (o : Options) (p : String)
    (hhelp : o.help = false) (hbase : o.baseFunctorPath = some p)
    (hload : env.bootLoader p = none) :
    (main env o).status = some 1 ∧
    (main env o).trace = (configured env o).trace ++
      [.optVarBuild 0, .registerConstantProp "internal.boot.base" (.optVar 0), .bootLoader p] ∧
    (∀ n, Effect.registerConstantProp "internal.boot.init" n ∉ (main env o).trace) ∧
    (main env o).lookup "internal.boot.init" = none ∧
    ((main env o).trace.filter fun e => e matches .bootLoader _) = [.bootLoader p] ∧
    (∀ callee args, Effect.asyncOzCall callee args ∉ (main env o).trace) ∧
    (main env o).threads = [] ∧
    Effect.run ∉ (main env o).trace := by
  have hmain : main env o = { ((((configured env o).optVarBuild).2.registerConstantProp
      "internal.boot.base" (.optVar 0)).bootLoader env p).2 with
      cerr := "panic: could not load Base functor at " ++ insertPath p ++ "\n"
      status := some 1 } := by
    simp [main, hhelp, basePhase, hbase, loadBase, Boot.optVarBuild, Boot.registerConstantProp,
      Boot.bootLoader, hload, configured_nextVar, configured_cerr]
  have hcfg := configured_trace env o
  have hboot := configured_lookup_boot env o
  rw [hmain]
  refine ⟨rfl, ?_, ?_, ?_, ?_, ?_, ?_, ?_⟩
  · simp [Boot.optVarBuild, Boot.registerConstantProp, Boot.bootLoader, configured_nextVar]
  · intro n hn
    simp [Boot.optVarBuild, Boot.registerConstantProp, Boot.bootLoader] at hn
    obtain ⟨k, v, hk⟩ := hcfg _ hn
    cases hk
  · simpa [Boot.optVarBuild, Boot.registerConstantProp, Boot.bootLoader, Boot.lookup] using hboot.2
  · simp [Boot.optVarBuild, Boot.registerConstantProp, Boot.bootLoader, List.filter_append]
    intro e he
    obtain ⟨k, v, hk⟩ := hcfg _ he
    subst hk; simp
  · intro c a hn
    simp [Boot.optVarBuild, Boot.registerConstantProp, Boot.bootLoader] at hn
    obtain ⟨k, v, hk⟩ := hcfg _ hn
    cases hk
  · simp [Boot.optVarBuild, Boot.registerConstantProp, Boot.bootLoader, configured_threads]
  · intro hn
    simp [Boot.optVarBuild, Boot.registerConstantProp, Boot.bootLoader] at hn
    obtain ⟨k, v, hk⟩ := hcfg _ hn
    cases hk

/-- C5, at work: the sample host has no file `Base.ozf`. -/
theorem base_failure_stops_witness :
    (main sampleEnv { sampleOptions with baseFunctorPath := some "Base.ozf" }).status = some 1 ∧
    Effect.registerConstantProp "internal.boot.init" (.optVar 1) ∉
      (main sampleEnv { sampleOptions with baseFunctorPath := some "Base.ozf" }).trace ∧
    Effect.run ∉
      (main sampleEnv { sampleOptions with baseFunctorPath := some "Base.ozf" }).trace :=
  ⟨(base_failure_stops sampleEnv { sampleOptions with baseFunctorPath := some "Base.ozf" }
      "Base.ozf" rfl rfl (by decide)).1,
    (base_failure_stops sampleEnv { sampleOptions with baseFunctorPath := some "Base.ozf" }
      "Base.ozf" rfl rfl (by decide)).2.2.1 (.optVar 1),
    (base_failure_stops sampleEnv { sampleOptions with baseFunctorPath := some "Base.ozf" }
      "Base.ozf" rfl rfl (by decide)).2.2.2.2.2.2.2⟩

/-- C6: in a run that gets past the options, without `base` and with an Init
load that yields a procedure, the Init phase ends in a state `sI` and `main`
returns 0 after exactly these calls: setting the properties, the Init
variable, its registration as `internal.boot.init`, the load, the call of the
procedure on that variable, a run, the read of `internal.boot.init`, the
selection of `apply` on what was read, the record `import(Boot: <module>)`,
a new variable, the call of the selected `apply` on that record and variable,
a run. If the scheduler binds the output cell of every call it ran, the value
`v` the scheduler produced for the Init call is what the Init variable holds
after the Init phase and still at the end, and `apply` is selected on `v`. -/
theorem init_procedure_boot (env : Env) (o : Options) (unit : Value)
    (hhelp : o.help = false) (hbase : o.baseFunctorPath = none)
    (hload : env.bootLoader (resolveInit env o) = some unit)
    (hproc : isProcedure unit = true) :
    ∃ (sI : Boot) (functor : Node),
      loadInit env (resolveInit env o) (configured env o) = .next sI ∧
      functor = sI.resolve (.optVar 0) ∧
      (main env o).status = some 0 ∧
      (main env o).trace = (configured env o).trace ++
        [.optVarBuild 0, .registerConstantProp "internal.boot.init" (.optVar 0),
          .bootLoader (resolveInit env o), .isProcedure unit,
          .asyncOzCall (.value unit) [.optVar 0], .run,
          .getProp "internal.boot.init", .build (.atom "apply"),
          .dot functor (.atom "apply"), .findBuiltinModule "Boot",
          .build (.record "import" (.field "Boot" (.builtinModule "Boot") .nil)),
          .optVarBuild 1,
          .asyncOzCall (env.dot functor (.atom "apply"))
            [.value (.record "import" (.field "Boot" (.builtinModule "Boot") .nil)),
              .optVar 1],
          .run] ∧
      (main env o).lookup "internal.boot.init" =
        some { key := "internal.boot.init", kind := .constant, node := .optVar 0 } ∧
      (SchedulerBinds env →
        ∃ v, env.scheduler [OzCall.mk (.value unit) [.optVar 0]] (fun _ => none) 0 = some v ∧
          sI.store 0 = some v ∧
          functor = .value v ∧
          (main env o).store 0 = some v ∧
          (main env o).resolve (.optVar 0) = .value v) := by
  have hB : basePhase env o (configured env o) = .next (configured env o) := by
    simp [basePhase, hbase]
  have hI : loadInit env (resolveInit env o) (configured env o) =
      .next (loadInit env (resolveInit env o) (configured env o)).state := by
    simp [loadInit, registerInit, Flow.state, Boot.optVarBuild, Boot.registerConstantProp,
      Boot.bootLoader, hload, hproc, Boot.isProcedure]
  have hmain := main_of_base_next env o _ hhelp hB
  rw [hI] at hmain
  refine ⟨_, _, hI, rfl, ?_, ?_, ?_, ?_⟩
  · rw [hmain]
  · rw [hmain]
    simp [applyInit, loadInit, registerInit, Flow.state, Boot.optVarBuild,
      Boot.registerConstantProp, Boot.bootLoader, hload, hproc, Boot.isProcedure,
      Boot.asyncOzCall, Boot.run, Boot.getProp, Boot.build, Boot.dot, Boot.findBuiltinModule,
      Boot.lookup, Boot.resolve, configured_nextVar]
  · rw [hmain]
    simp [applyInit, loadInit, registerInit, Flow.state, Boot.optVarBuild,
      Boot.registerConstantProp, Boot.bootLoader, hload, hproc, Boot.isProcedure,
      Boot.asyncOzCall, Boot.run, Boot.getProp, Boot.build, Boot.dot, Boot.findBuiltinModule,
      Boot.lookup, configured_nextVar]
  · intro hs
    have hb := hs [OzCall.mk (.value unit) [.optVar 0]] (fun _ => none)
      (OzCall.mk (.value unit) [.optVar 0]) 0 (by simp) (by simp)
    obtain ⟨v, hv⟩ := Option.isSome_iff_exists.mp hb
    refine ⟨v, hv, ?_⟩
    rw [hmain]
    simp [applyInit, loadInit, registerInit, Flow.state, Boot.optVarBuild,
      Boot.registerConstantProp, Boot.bootLoader, hload, hproc, Boot.isProcedure,
      Boot.asyncOzCall, Boot.run, Boot.getProp, Boot.build, Boot.dot, Boot.findBuiltinModule,
      Boot.lookup, Boot.resolve, configured_nextVar, configured_store, configured_threads, hv]

/-- C6, at work: the sample host and options; the Init procedure yields the
functor whose `apply` is procedure 10, and that `apply` is what the last call
runs. -/
theorem init_procedure_boot_witness :
    (main sampleEnv sampleOptions).status = some 0 ∧
    (main sampleEnv sampleOptions).store 0 =
      some (.record "functor" (.field "apply" (.procedure 10) .nil)) ∧
    Effect.asyncOzCall (.value (.procedure 10))
      [.value (.record "import" (.field "Boot" (.builtinModule "Boot") .nil)), .optVar 1] ∈
      (main sampleEnv sampleOptions).trace := by
  obtain ⟨sI, functor, _, _, h3, h4, _, h6⟩ :=
    init_procedure_boot sampleEnv sampleOptions (.procedure 1) rfl rfl (by decide) rfl
  obtain ⟨v, hv, _, hf, hm, _⟩ := h6 sampleEnv_schedulerBinds
  have hv' : v = .record "functor" (.field "apply" (.procedure 10) .nil) := by
    have : sampleEnv.scheduler [OzCall.mk (.value (.procedure 1)) [.optVar 0]]
        (fun _ => none) 0 = some (.record "functor" (.field "apply" (.procedure 10) .nil)) := by
      decide
    rw [this] at hv
    exact (Option.some.inj hv).symm
  subst hv'
  refine ⟨h3, hm, ?_⟩
  rw [h4, hf]
  simp [sampleEnv, Fields.lookup]

/-- C7: in a run that gets past the options, `application.args` is registered
once, with a value `registered` that reads, cell by cell, as a list `elems`
as long as the application arguments and with, at each position, the atom
made from the C string of the argument at that position - the argument
itself, as no C string holds a NUL: for arguments without NUL the value reads
as the list of their atoms. No arguments give `nil`; `--flag` then `value`
give the two-element list of these atoms, in that order; three arguments give
the three cells of their atoms. -/
theorem application_args_list (env : Env) (o : Options) (hhelp : o.help = false) :
    ∃ (registered : Value) (elems : List Value),
      (main env o).lookup "application.args" =
        some { key := "application.args", kind := .value, node := .value registered } ∧
      Effect.registerValueProp "application.args" registered ∈ (main env o).trace ∧
      (∀ v, Effect.registerValueProp "application.args" v ∈ (main env o).trace →
        v = registered) ∧
      registered.elements = some elems ∧
      elems.length = o.appArgs.length ∧
      (∀ (i : Nat) (h : i < o.appArgs.length),
        elems[i]? = some (.atom (c_str (o.appArgs.get ⟨i, h⟩)))) ∧
      (∀ a ∈ o.appArgs, Char.ofNat 0 ∉ a.data → Value.atom (c_str a) = .atom a) ∧
      ((∀ a ∈ o.appArgs, Char.ofNat 0 ∉ a.data) →
        registered.elements = some (o.appArgs.map Value.atom)) ∧
      (o.appArgs = [] → registered = .atom "nil") ∧
      (o.appArgs = ["--flag", "value"] →
        registered = .cons (.atom "--flag") (.cons (.atom "value") (.atom "nil"))) ∧
      (∀ a b c, o.appArgs = [a, b, c] →
        registered = .cons (.atom (c_str a)) (.cons (.atom (c_str b))
          (.cons (.atom (c_str c)) (.atom "nil")))) := by
  refine ⟨ozList (o.appArgs.map fun arg => Value.atom (c_str arg)),
    o.appArgs.map fun arg => Value.atom (c_str arg),
    ?_, ?_, ?_, ?_, ?_, ?_, ?_, ?_, ?_, ?_, ?_⟩
  · rw [main_lookup env o _ hhelp (by decide) (by decide)]
    unfold configured setProperties
    cases o.ozSearchPath <;> cases o.ozSearchLoad <;>
      simp [Boot.registerValueProp, Boot.start, Boot.lookup]
  · rw [main_mem_registerValueProp env o _ _ hhelp]
    unfold configured setProperties
    cases o.ozSearchPath <;> cases o.ozSearchLoad <;>
      simp [Boot.registerValueProp, Boot.start]
  · intro v
    rw [main_mem_registerValueProp env o _ _ hhelp]
    unfold configured setProperties
    cases o.ozSearchPath <;> cases o.ozSearchLoad <;>
      simp [Boot.registerValueProp, Boot.start]
  · exact ozList_elements _
  · simp
  · intro i h
    simp [List.getElem?_map, List.getElem?_eq_getElem h]
  · intro a _ hnul
    rw [c_str_of_no_nul a hnul]
  · intro hnul
    rw [ozList_elements]
    congr 1
    apply List.map_congr_left
    intro a ha
    rw [c_str_of_no_nul a (hnul a ha)]
  · intro h
    simp [h, ozList]
  · intro h
    rw [h]
    decide
  · intro a b c h
    simp [h, ozList]

/-- C7, at work: the sample options carry the arguments `--flag` and `value`;
the registered value is the list of the two atoms and reads as such. -/
theorem application_args_list_witness :
    (main sampleEnv sampleOptions).lookup "application.args" =
      some { key := "application.args", kind := .value,
             node := .value (.cons (.atom "--flag") (.cons (.atom "value") (.atom "nil"))) } ∧
    (Value.cons (.atom "--flag") (.cons (.atom "value") (.atom "nil"))).elements =
      some [.atom "--flag", .atom "value"] := by
  obtain ⟨registered, elems, h1, _, _, _, _, _, _, h8, _, h10, _⟩ :=
    application_args_list sampleEnv sampleOptions rfl
  have hr := h10 rfl
  subst hr
  exact ⟨h1, h8 (by decide)⟩

/-- C8: in a run that gets past the options, `oz.home`, `oz.emulator.home`
and `oz.configure.home` are each registered, and in the state `main` leaves
each reads as the same value, the atom of the resolved home; that home is the
`home` option when one was given, and the derived directory otherwise. -/
theorem home_properties (env : Env) (o : Options) (hhelp : o.help = false) :
    (∀ key ∈ ["oz.home", "oz.emulator.home", "oz.configure.home"],
      (main env o).lookup key =
        some { key := key, kind := .value, node := .value (.atom (resolveHome env o)) } ∧
      Effect.registerValueProp key (.atom (resolveHome env o)) ∈ (main env o).trace ∧
      ∀ v, Effect.registerValueProp key v ∈ (main env o).trace →
        v = .atom (resolveHome env o)) ∧
    pathToAtom (resolveHome env o) = .atom (resolveHome env o) ∧
    (resolveHome env o = o.ozHome ∨ o.ozHome = "") := by
  refine ⟨?_, rfl, ?_⟩
  · intro key hkey
    simp only [List.mem_cons, List.mem_singleton, List.not_mem_nil, or_false] at hkey
    rcases hkey with rfl | rfl | rfl <;>
    · rw [main_lookup env o _ hhelp (by decide) (by decide)]
      simp only [main_mem_registerValueProp env o _ _ hhelp]
      unfold configured setProperties
      cases o.ozSearchPath <;> cases o.ozSearchLoad <;>
        simp [Boot.registerValueProp, Boot.start, Boot.lookup, pathToAtom, strToAtom]
  · unfold resolveHome
    by_cases h : o.ozHome = "" <;> simp [h]

/-- C8, at work: the sample options give no home; it is derived from
`argv[0]`. -/
theorem home_properties_witness :
    (main sampleEnv sampleOptions).lookup "oz.emulator.home" =
      some { key := "oz.emulator.home", kind := .value, node := .value (.atom "/opt/mozart") } :=
  ((home_properties sampleEnv sampleOptions rfl).1 "oz.emulator.home" (by decide)).1

/-- C9: `envVarToOptionName` answers `home` exactly for `OZ_HOME` and
`OZHOME`, and the empty string - no option - exactly for every other name;
a name in lower case, a shorter or a longer name and the empty name are among
the others. -/
theorem envVarToOptionName_spec (s : String) :
    (envVarToOptionName s = "home" ↔ (s = "OZ_HOME" ∨ s = "OZHOME")) ∧
    (envVarToOptionName s = "" ↔ ¬ (s = "OZ_HOME" ∨ s = "OZHOME")) ∧
    (envVarToOptionName s = "home" ∨ envVarToOptionName s = "") ∧
    envVarToOptionName "oz_home" = "" ∧ envVarToOptionName "OZ_HOM" = "" ∧
    envVarToOptionName "OZ_HOME_DIR" = "" ∧ envVarToOptionName "" = "" := by
  unfold envVarToOptionName
  refine ⟨?_, ?_, ?_, by decide, by decide, by decide, by decide⟩
  · by_cases h : s = "OZ_HOME" ∨ s = "OZHOME" <;> simp [h]
  · by_cases h : s = "OZ_HOME" ∨ s = "OZHOME" <;> simp [h]
  · by_cases h : s = "OZ_HOME" ∨ s = "OZHOME" <;> simp [h]

/-- C10: in a run that gets past the options and whose Base load, if there is
one, succeeds, let `sB` be the state the Base phase leaves and let the Init
load yield `unit`. If `unit` is not a procedure, the Init block makes exactly
five calls - the variable, its registration as `internal.boot.init`, the
load, the test, one `bind` of the variable to `unit` - so it schedules and
runs nothing, and the variable holds `unit`; the Apply block then reads the
key and selects `apply` on `unit` itself; `main` returns 0 and the scheduler
ran once per Base phase plus once. If `unit` is a procedure, `main` returns 0
and the scheduler ran once per Base phase plus twice. -/
theorem init_value_bound_directly (env : Env) (o : Options) (unit : Value)
    (hhelp : o.help = false)
    (hbaseok : ∀ p, o.baseFunctorPath = some p → (env.bootLoader p).isSome)
    (hload : env.bootLoader (resolveInit env o) = some unit) :
    ∃ sB : Boot,
      basePhase env o (configured env o) = .next sB ∧
      sB.trace.count .run = basePhases o ∧
      (isProcedure unit = false →
        (loadInit env (resolveInit env o) sB).state.trace = sB.trace ++
          [.optVarBuild sB.nextVar,
            .registerConstantProp "internal.boot.init" (.optVar sB.nextVar),
            .bootLoader (resolveInit env o), .isProcedure unit, .bind sB.nextVar unit] ∧
        (loadInit env (resolveInit env o) sB).state.store sB.nextVar = some unit ∧
        (loadInit env (resolveInit env o) sB).state.threads = sB.threads ∧
        (main env o).status = some 0 ∧
        (main env o).trace = (loadInit env (resolveInit env o) sB).state.trace ++
          [.getProp "internal.boot.init", .build (.atom "apply"),
            .dot (.value unit) (.atom "apply"), .findBuiltinModule "Boot",
            .build (.record "import" (.field "Boot" (.builtinModule "Boot") .nil)),
            .optVarBuild (sB.nextVar + 1),
            .asyncOzCall (env.dot (.value unit) (.atom "apply"))
              [.value (.record "import" (.field "Boot" (.builtinModule "Boot") .nil)),
                .optVar (sB.nextVar + 1)],
            .run] ∧
        (main env o).trace.count .run = basePhases o + 1 ∧
        (main env o).trace.countP (fun e => e matches .bind _ _) = 1) ∧
      (isProcedure unit = true →
        (main env o).status = some 0 ∧
        (main env o).trace.count .run = basePhases o + 2) := by
  have hcfg := configured_trace env o
  have hrun := configured_count_run env o
  have hbind : (configured env o).trace.countP (fun e => e matches .bind _ _) = 0 := by
    rw [List.countP_eq_zero]
    intro e he
    obtain ⟨k, v, hk⟩ := hcfg _ he
    subst hk; simp
  have hB : basePhase env o (configured env o) =
      .next (basePhase env o (configured env o)).state := by
    cases hbase : o.baseFunctorPath with
    | none => simp [basePhase, hbase, Flow.state]
    | some p =>
      obtain ⟨b, hb⟩ := Option.isSome_iff_exists.mp (hbaseok p hbase)
      cases hq : isProcedure b <;>
      simp [basePhase, hbase, loadBase, Flow.state, Boot.optVarBuild,
        Boot.registerConstantProp, Boot.bootLoader, hb, hq, Boot.isProcedure]
  have hBrun : (basePhase env o (configured env o)).state.trace.count .run = basePhases o := by
    cases hbase : o.baseFunctorPath with
    | none => simp [basePhase, hbase, Flow.state, basePhases, hrun]
    | some p =>
      obtain ⟨b, hb⟩ := Option.isSome_iff_exists.mp (hbaseok p hbase)
      cases hq : isProcedure b <;>
      simp [basePhase, hbase, loadBase, Flow.state, Boot.optVarBuild,
        Boot.registerConstantProp, Boot.bootLoader, hb, hq, Boot.isProcedure,
        Boot.asyncOzCall, Boot.run, Boot.build, Boot.dot, basePhases, hrun,
        List.count_append, List.count_cons]
  have hBbind : (basePhase env o (configured env o)).state.trace.countP
      (fun e => e matches .bind _ _) = 0 := by
    cases hbase : o.baseFunctorPath with
    | none => simp only [basePhase, hbase, Flow.state, hbind]
    | some p =>
      obtain ⟨b, hb⟩ := Option.isSome_iff_exists.mp (hbaseok p hbase)
      cases hq : isProcedure b <;>
      simp [basePhase, hbase, loadBase, Flow.state, Boot.optVarBuild,
        Boot.registerConstantProp, Boot.bootLoader, hb, hq, Boot.isProcedure,
        Boot.asyncOzCall, Boot.run, Boot.build, Boot.dot, hbind,
        List.countP_append, List.countP_cons]
  have hmain := main_of_base_next env o _ hhelp hB
  generalize (basePhase env o (configured env o)).state = sB at hB hBrun hBbind hmain
  refine ⟨sB, hB, hBrun, ?_, ?_⟩
  · intro hp
    have hI : loadInit env (resolveInit env o) sB =
        .next (loadInit env (resolveInit env o) sB).state := by
      simp [loadInit, registerInit, Flow.state, Boot.optVarBuild, Boot.registerConstantProp,
        Boot.bootLoader, hload, hp, Boot.isProcedure]
    rw [hI] at hmain
    have hItrace : (loadInit env (resolveInit env o) sB).state.trace = sB.trace ++
        [.optVarBuild sB.nextVar,
          .registerConstantProp "internal.boot.init" (.optVar sB.nextVar),
          .bootLoader (resolveInit env o), .isProcedure unit, .bind sB.nextVar unit] := by
      simp [loadInit, registerInit, Flow.state, Boot.optVarBuild, Boot.registerConstantProp,
        Boot.bootLoader, hload, hp, Boot.isProcedure, Boot.bind]
    have hmt : (main env o).trace = (loadInit env (resolveInit env o) sB).state.trace ++
        [.getProp "internal.boot.init", .build (.atom "apply"),
          .dot (.value unit) (.atom "apply"), .findBuiltinModule "Boot",
          .build (.record "import" (.field "Boot" (.builtinModule "Boot") .nil)),
          .optVarBuild (sB.nextVar + 1),
          .asyncOzCall (env.dot (.value unit) (.atom "apply"))
            [.value (.record "import" (.field "Boot" (.builtinModule "Boot") .nil)),
              .optVar (sB.nextVar + 1)],
          .run] := by
      rw [hmain]
      simp [applyInit, loadInit, registerInit, Flow.state, Boot.optVarBuild,
        Boot.registerConstantProp, Boot.bootLoader, hload, hp, Boot.isProcedure,
        Boot.asyncOzCall, Boot.run, Boot.bind, Boot.getProp, Boot.build, Boot.dot,
        Boot.findBuiltinModule, Boot.lookup, Boot.resolve]
    refine ⟨hItrace, ?_, ?_, ?_, hmt, ?_, ?_⟩
    · simp [loadInit, registerInit, Flow.state, Boot.optVarBuild, Boot.registerConstantProp,
        Boot.bootLoader, hload, hp, Boot.isProcedure, Boot.bind]
    · simp [loadInit, registerInit, Flow.state, Boot.optVarBuild, Boot.registerConstantProp,
        Boot.bootLoader, hload, hp, Boot.isProcedure, Boot.bind]
    · rw [hmain]
    · rw [hmt, hItrace]
      simp [List.count_append, List.count_cons, hBrun]
    · rw [hmt, hItrace]
      simp [List.countP_append, List.countP_cons, hBbind]
  · intro hp
    have hI : loadInit env (resolveInit env o) sB =
        .next (loadInit env (resolveInit env o) sB).state := by
      simp [loadInit, registerInit, Flow.state, Boot.optVarBuild, Boot.registerConstantProp,
        Boot.bootLoader, hload, hp, Boot.isProcedure]
    rw [hI] at hmain
    rw [hmain]
    refine ⟨rfl, ?_⟩
    simp [applyInit, loadInit, registerInit, Flow.state, Boot.optVarBuild,
      Boot.registerConstantProp, Boot.bootLoader, hload, hp, Boot.isProcedure,
      Boot.asyncOzCall, Boot.run, Boot.getProp, Boot.build, Boot.dot,
      Boot.findBuiltinModule, List.count_append, List.count_cons, hBrun]

/-- C10, at work: the sample host loads the applied functor `/opt/Base.ozf`
as Init, without and with the same file as Base: one run, then two; with the
Init procedure of the sample options there are two runs without Base. -/
theorem init_value_bound_directly_witness :
    (main sampleEnv { sampleOptions with initFunctorPath := "/opt/Base.ozf" }).trace.count
      .run = 1 ∧
    (main sampleEnv { sampleOptions with initFunctorPath := "/opt/Base.ozf",
                                         baseFunctorPath := some "/opt/Base.ozf" }).trace.count
      .run = 2 ∧
    (main sampleEnv sampleOptions).trace.count .run = 2 := by
  obtain ⟨_, _, _, h1, _⟩ :=
    init_value_bound_directly sampleEnv { sampleOptions with initFunctorPath := "/opt/Base.ozf" }
      (.record "functor" (.field "apply" (.procedure 2) .nil)) rfl (by decide) (by decide)
  obtain ⟨_, _, _, h2, _⟩ :=
    init_value_bound_directly sampleEnv
      { sampleOptions with initFunctorPath := "/opt/Base.ozf",
                           baseFunctorPath := some "/opt/Base.ozf" }
      (.record "functor" (.field "apply" (.procedure 2) .nil)) rfl (by decide) (by decide)
  obtain ⟨_, _, _, _, h3⟩ :=
    init_value_bound_directly sampleEnv sampleOptions (.procedure 1) rfl (by decide)
      (by decide)
  exact ⟨(h1 rfl).2.2.2.2.2.1, (h2 rfl).2.2.2.2.2.1, (h3 rfl).2⟩

end Emulator
